import Mathlib

/-!
# Verification of the Smart MediBox controller (`src/esp32-arduino.ino`)

A shallow embedding of the pure control logic of the MediBox sketch:

* the button-driven value editor `read_value` (a loop over Up/Down/Ok/Cancel
  presses, modelled as a function over a finite list of button events);
* the alarm registry (`check_alarm`, `set_alarm`, `disable_alarms`);
* the timezone editor `set_timezone_and_config` (C `/` and `%` on `long`
  truncate toward zero, modelled with `Int.tdiv` / `Int.tmod`);
* the actuator controller (`calculate_servo_position`, `receive_callback`,
  `read_intensity`); C float-to-int conversion truncates toward zero,
  modelled on exact rationals with `ratTrunc`;
* the environmental thresholds (`check_temperature_humidity`).

Hardware and I/O (display, buzzer, MQTT transport, sensors) appear only as
returned event lists / output values.
-/

namespace Medibox

/-- The four logical push buttons read by `wait_for_button_press`. -/
inductive Button where
  | up
  | down
  | ok
  | cancel
deriving DecidableEq, Repr

/-- One alarm entry: `struct alarm { int hours; int minutes; bool triggered; }`. -/
structure Alarm where
  hours : ℤ
  minutes : ℤ
  triggered : Bool
deriving DecidableEq, Repr

/-- The global mutable state touched by the interaction state machine:
`alarm_enabled`, the three-entry `alarms` array, the current `hours` and
`minutes` refreshed by `update_time`, and `utc_offset_sec`. -/
structure MediState where
  alarm_enabled : Bool
  alarms : List Alarm
  hours : ℤ
  minutes : ℤ
  utc_offset_sec : ℤ
deriving DecidableEq, Repr

/-- The loop body of `read_value`: `temp_value` starts at `init_value`; each
Up press does `temp_value += 1; if (temp_value > max_value) temp_value = min_value;`,
each Down press does `temp_value -= 1; if (temp_value < min_value) temp_value = max_value;`,
Ok returns `temp_value`, Cancel breaks out and the function returns `init_value`.
The button sequence is the successive results of `wait_for_button_press`;
`none` means the sequence was exhausted with the loop still blocked. -/
def read_value_loop (init_value max_value min_value temp_value : ℤ) :
    List Button → Option ℤ
  | [] => none
  | b :: rest =>
    match b with
    | .up =>
        read_value_loop init_value max_value min_value
          (if temp_value + 1 > max_value then min_value else temp_value + 1) rest
    | .down =>
        read_value_loop init_value max_value min_value
          (if temp_value - 1 < min_value then max_value else temp_value - 1) rest
    | .ok => some temp_value
    | .cancel => some init_value

/-- `int read_value(String text, int init_value, int max_value, int min_value)`:
runs the editing loop with the working value initialised to `init_value`. -/
def read_value (init_value max_value min_value : ℤ) (seq : List Button) : Option ℤ :=
  read_value_loop init_value max_value min_value init_value seq

/-- The state update of one Up press inside `read_value`'s loop:
`temp_value += 1; if (temp_value > max_value) temp_value = min_value;`
(the same expression that appears in the Up branch of `read_value_loop`). -/
def up_step (max_value min_value v : ℤ) : ℤ :=
  if v + 1 > max_value then min_value else v + 1

/-- The firing condition tested inside `check_alarm`'s loop:
`!alarms[i].triggered && alarms[i].hours == hours && alarms[i].minutes == minutes`. -/
def alarm_fires (a : Alarm) (h m : ℤ) : Bool :=
  !a.triggered && (a.hours == h) && (a.minutes == m)

/-- `void check_alarm()`: returns early when `!alarm_enabled`; otherwise scans
the entries in order, and for each entry satisfying `alarm_fires` invokes
`ring_alarm()` and sets `triggered = true`.  The second component lists the
indices of the entries for which the ringing routine fired, in order. -/
def check_alarm (st : MediState) : MediState × List ℕ :=
  if !st.alarm_enabled then (st, [])
  else
    ({ st with
        alarms := st.alarms.map fun a =>
          if alarm_fires a st.hours st.minutes then { a with triggered := true } else a },
      (List.range st.alarms.length).filter fun i =>
        alarm_fires (st.alarms.getD i ⟨0, 0, true⟩) st.hours st.minutes)

/-- `void set_alarm(int alarm)`: reads the hour with bounds `[0, 23]`
(initialised from the entry's current hour, written back as soon as the first
`read_value` returns), then the minute with bounds `[0, 59]` (initialised from
the entry's current minute), then sets `triggered = false` and, if
`alarm_enabled` was false, sets it true.  The two button sequences feed the two
`read_value` calls; `none` means one of them never returned. -/
def set_alarm (st : MediState) (i : ℕ) (seq1 seq2 : List Button) : Option MediState :=
  let a := st.alarms.getD i ⟨0, 0, true⟩
  match read_value a.hours 23 0 seq1 with
  | none => none
  | some h =>
    match read_value a.minutes 59 0 seq2 with
    | none => none
    | some m =>
      some { st with
        alarms := st.alarms.set i { hours := h, minutes := m, triggered := false },
        alarm_enabled := true }

/-- `void disable_alarms()`: sets `alarm_enabled = false` and resets every
entry to `{0, 0, true}`. -/
def disable_alarms (st : MediState) : MediState :=
  { st with
    alarm_enabled := false,
    alarms := st.alarms.map fun _ => ⟨0, 0, true⟩ }

/-- `void set_timezone_and_config()`: decomposes `utc_offset_sec` with C
`long` division and remainder (both truncate toward zero, `Int.tdiv` /
`Int.tmod`), runs the hour editor with bounds `[-12, 14]` and the minute
editor with bounds `[0, 59]`, and unconditionally recombines
`utc_offset_sec = offset_hours * 3600 + offset_minutes * 60`.  Returns the new
`utc_offset_sec` together with the two values the editors returned. -/
def set_timezone_and_config (utc_offset_sec : ℤ) (seq1 seq2 : List Button) :
    Option (ℤ × ℤ × ℤ) :=
  let current_offset_hours := utc_offset_sec.tdiv 3600
  let current_offset_minutes := (utc_offset_sec.tmod 3600).tdiv 60
  match read_value current_offset_hours 14 (-12) seq1 with
  | none => none
  | some offset_hours =>
    match read_value current_offset_minutes 59 0 seq2 with
    | none => none
    | some offset_minutes =>
      some (offset_hours * 3600 + offset_minutes * 60, offset_hours, offset_minutes)

/-- Side effects of the actuator controller: commanding the servo
(`servo.write(servo_angle)`) and publishing on a telemetry topic
(`mqttClient.publish(topic, value)`). -/
inductive Event where
  | servoWrite (angle : ℤ)
  | publish (topic : String) (value : ℤ)
deriving DecidableEq, Repr

/-- C conversion of a floating value to `int`: truncation toward zero.  The
float arithmetic of the sketch is modelled on exact rationals; `q.den` is
positive, so `tdiv` on `q.num / q.den` is exactly the C truncation. -/
def ratTrunc (q : ℚ) : ℤ :=
  q.num.tdiv q.den

/-- The remotely tunable actuator parameters and the retained light sample:
`int offset_angle`, `float control_factor`, `float intensity`. -/
structure ServoState where
  offset_angle : ℤ
  control_factor : ℚ
  intensity : ℚ
deriving DecidableEq, Repr

/-- `void calculate_servo_position()`:
`int servo_angle = offset_angle + (180 - offset_angle) * intensity * control_factor;`
(float arithmetic truncated to `int` by the assignment), then unconditionally
`servo.write(servo_angle)` and `mqttClient.publish(SERVO_MOTOR_ANGLE_TOPIC, ...)`. -/
def calculate_servo_position (st : ServoState) : ℤ × List Event :=
  let servo_angle :=
    ratTrunc ((st.offset_angle : ℚ) + (180 - (st.offset_angle : ℚ)) * st.intensity * st.control_factor)
  (servo_angle, [Event.servoWrite servo_angle, Event.publish "SERVO_MOTOR_ANGLE" servo_angle])

/-- `void receive_callback(char* topic, byte* payload, unsigned int length)`:
on `SERVO_MIN_ANGLE` the payload's `atof` value is assigned to the `int`
`offset_angle` (double-to-int conversion truncates toward zero); on
`SERVO_CONTROLLING_FACTOR` it is assigned to the `float` `control_factor`;
then `calculate_servo_position()` runs unconditionally.  `parsed` is the
value `atof(payload_array)` produced from the payload text (libc `atof`
returns 0.0 on malformed text and is otherwise unconstrained: no bounds
check or validation happens in the sketch). -/
def receive_callback (st : ServoState) (topic : String) (parsed : ℚ) :
    ServoState × List Event :=
  let st' :=
    if topic = "SERVO_MIN_ANGLE" then { st with offset_angle := ratTrunc parsed }
    else if topic = "SERVO_CONTROLLING_FACTOR" then { st with control_factor := parsed }
    else st
  (st', (calculate_servo_position st').2)

/-- The Arduino framework's `map` (external to the sketch):
`(x - in_min) * (out_max - out_min) / (in_max - in_min) + out_min` on `long`,
with C division truncating toward zero. -/
def map_fn (x in_min in_max out_min out_max : ℤ) : ℤ :=
  ((x - in_min) * (out_max - out_min)).tdiv (in_max - in_min) + out_min

/-- The normalized light sample computed by `read_intensity` from the raw
analog reading: `intensity = map(analog_value, 0, 4095, 100, 0) / 100.00;`. -/
def read_intensity_value (analog_value : ℤ) : ℚ :=
  (map_fn analog_value 0 4095 100 0 : ℚ) / 100

/-- `void check_temperature_humidity()` (threshold part): `warning` starts
false; `if (temperature > 32)` warn HIGH `else if (temperature < 26)` warn
LOW; `if (humidity > 80)` warn HIGH `else if (humidity < 60)` warn LOW.
Returns the warning lines printed, in order, and the final `warning` flag. -/
def check_temperature_humidity (temperature humidity : ℚ) : List String × Bool :=
  let temp_msgs : List String :=
    if temperature > 32 then ["Temperature HIGH"]
    else if temperature < 26 then ["Temperature LOW"]
    else []
  let hum_msgs : List String :=
    if humidity > 80 then ["Humidity HIGH"]
    else if humidity < 60 then ["Humidity LOW"]
    else []
  let msgs := temp_msgs ++ hum_msgs
  (msgs, !msgs.isEmpty)

/-! ## Theorems -/

/-- On nonnegative rationals, C truncation toward zero agrees with the floor. -/
theorem ratTrunc_of_nonneg (q : ℚ) (h : 0 ≤ q) : ratTrunc q = ⌊q⌋ := by
  unfold ratTrunc
  rw [Int.tdiv_eq_ediv (Rat.num_nonneg.mpr h) (Int.ofNat_nonneg q.den)]
  exact Rat.floor_def.symm

/-- C3: `calculate_servo_position` computes the angle as
`offset_angle + (180 - offset_angle) * intensity * control_factor` truncated to
an integer; `offset_angle = 30`, `control_factor = 0.75`, `intensity = 0.5`
yields `86` (truncation of 86.25); it is deterministic (equal parameter states
give equal angles); and on every invocation it commands the servo and
publishes the computed angle, regardless of any previous value. -/
theorem calculate_servo_position_spec :
    (∀ st : ServoState, (calculate_servo_position st).1 =
      ratTrunc ((st.offset_angle : ℚ) +
        (180 - (st.offset_angle : ℚ)) * st.intensity * st.control_factor)) ∧
    (calculate_servo_position ⟨30, 3/4, 1/2⟩).1 = 86 ∧
    (∀ st st' : ServoState, st = st' →
      (calculate_servo_position st).1 = (calculate_servo_position st').1) ∧
    (∀ st : ServoState, (calculate_servo_position st).2 =
      [Event.servoWrite (calculate_servo_position st).1,
       Event.publish "SERVO_MOTOR_ANGLE" (calculate_servo_position st).1]) := by
  refine ⟨fun st => rfl, ?_, fun st st' h => by rw [h], fun st => rfl⟩
  have harg : ((30 : ℤ) : ℚ) + (180 - ((30 : ℤ) : ℚ)) * (1/2) * (3/4) = 345/4 := by
    norm_num
  have h1 : (calculate_servo_position ⟨30, 3/4, 1/2⟩).1 = ratTrunc (345/4 : ℚ) := by
    simp only [calculate_servo_position, harg]
  rw [h1, ratTrunc_of_nonneg _ (by norm_num)]
  rw [Int.floor_eq_iff]
  norm_num

/-- Witness for C3: the determinism conjunct applied at the concrete parameter
state of the claim, together with the concrete angle it computes. -/
theorem calculate_servo_position_spec_witness :
    (calculate_servo_position ⟨30, 3/4, 1/2⟩).1 = (calculate_servo_position ⟨30, 3/4, 1/2⟩).1 ∧
    (calculate_servo_position ⟨30, 3/4, 1/2⟩).1 = 86 :=
  ⟨calculate_servo_position_spec.2.2.1 ⟨30, 3/4, 1/2⟩ ⟨30, 3/4, 1/2⟩ rfl,
   calculate_servo_position_spec.2.1⟩

/-- C5: on the base-offset topic the parsed payload value overwrites
`offset_angle` (via C double-to-int truncation), on the control-factor topic
it overwrites `control_factor`, unconditionally for every state and every
parsed value — no bounds check or clamping — and in both cases the servo
position is immediately recomputed from the new parameter and the servo
command and publish events are emitted. -/
theorem receive_callback_spec (st : ServoState) (v : ℚ) :
    receive_callback st "SERVO_MIN_ANGLE" v =
      ({ st with offset_angle := ratTrunc v },
       [Event.servoWrite (calculate_servo_position { st with offset_angle := ratTrunc v }).1,
        Event.publish "SERVO_MOTOR_ANGLE"
          (calculate_servo_position { st with offset_angle := ratTrunc v }).1]) ∧
    receive_callback st "SERVO_CONTROLLING_FACTOR" v =
      ({ st with control_factor := v },
       [Event.servoWrite (calculate_servo_position { st with control_factor := v }).1,
        Event.publish "SERVO_MOTOR_ANGLE"
          (calculate_servo_position { st with control_factor := v }).1]) := by
  constructor <;> simp [receive_callback, calculate_servo_position]

/-- C6: the warning lines of `check_temperature_humidity` are exactly
characterised by the strict threshold comparisons, and the boundary cases
behave as the claim states: temperature exactly 32 and humidity exactly 60
produce no warning, temperature 32.01 warns HIGH, humidity 59.99 warns LOW. -/
theorem check_temperature_humidity_spec :
    (∀ t h : ℚ,
      ("Temperature HIGH" ∈ (check_temperature_humidity t h).1 ↔ t > 32) ∧
      ("Temperature LOW" ∈ (check_temperature_humidity t h).1 ↔ t < 26) ∧
      ("Humidity HIGH" ∈ (check_temperature_humidity t h).1 ↔ h > 80) ∧
      ("Humidity LOW" ∈ (check_temperature_humidity t h).1 ↔ h < 60)) ∧
    (check_temperature_humidity 32 60).1 = [] ∧
    "Temperature HIGH" ∈ (check_temperature_humidity (3201/100) 70).1 ∧
    "Humidity LOW" ∈ (check_temperature_humidity 30 (5999/100)).1 := by
  refine ⟨fun t h => ?_, by norm_num [check_temperature_humidity],
    by norm_num [check_temperature_humidity], by norm_num [check_temperature_humidity]⟩
  unfold check_temperature_humidity
  refine ⟨?_, ?_, ?_, ?_⟩ <;>
    · split_ifs <;> simp_all <;> linarith

set_option maxRecDepth 4000 in
/-- C10: `read_value` does not clamp an out-of-range initial value — with
initial value `-30` and bounds `[0, 59]`, an immediate Ok returns `-30`
unchanged — and such a call is reachable: committing offset hours `-1` and
minutes `30` stores `utc_offset_sec = -1800`, whose C decomposition
`(utc_offset_sec % 3600) / 60` is `-30`, so the next timezone edit starts the
minute editor at `-30`, outside `[0, 59]`, and Ok commits it. -/
theorem read_value_no_clamp_reachable :
    read_value (-30) 59 0 [Button.ok] = some (-30) ∧
    ¬ (0 : ℤ) ≤ -30 ∧
    set_timezone_and_config 0 [Button.down, Button.ok]
      (List.replicate 30 Button.up ++ [Button.ok]) = some (-1800, -1, 30) ∧
    ((-1800 : ℤ).tmod 3600).tdiv 60 = -30 ∧
    set_timezone_and_config (-1800) [Button.ok] [Button.ok] = some (-1800, 0, -30) := by
  exact ⟨rfl, by decide, by decide, by decide, by decide⟩

/-- C8: after `disable_alarms`, `alarm_enabled = false` and every one of the 3
entries equals `{0, 0, triggered = true}`, and a subsequent `check_alarm` at
current time (0, 0) fires no entry and changes nothing. -/
theorem disable_alarms_spec (st : MediState) (h3 : st.alarms.length = 3) :
    (disable_alarms st).alarm_enabled = false ∧
    (disable_alarms st).alarms = List.replicate 3 ⟨0, 0, true⟩ ∧
    check_alarm { disable_alarms st with hours := 0, minutes := 0 } =
      ({ disable_alarms st with hours := 0, minutes := 0 }, []) := by
  refine ⟨rfl, ?_, ?_⟩
  · simp [disable_alarms, List.map_const', h3]
  · simp [check_alarm, disable_alarms]

/-- Witness for C8: `disable_alarms` applied to a concrete fully armed state. -/
theorem disable_alarms_spec_witness :
    ([⟨1, 2, false⟩, ⟨3, 4, false⟩, ⟨5, 6, false⟩] : List Alarm).length = 3 ∧
    (disable_alarms ⟨true, [⟨1, 2, false⟩, ⟨3, 4, false⟩, ⟨5, 6, false⟩], 7, 8, 0⟩).alarms =
      List.replicate 3 ⟨0, 0, true⟩ :=
  ⟨by decide,
   (disable_alarms_spec ⟨true, [⟨1, 2, false⟩, ⟨3, 4, false⟩, ⟨5, 6, false⟩], 7, 8, 0⟩
     (by decide)).2.1⟩

/-- Postcondition of any returning `set_alarm` call: whatever the two button
sequences were, the edited entry ends with `triggered = false` and the
registry ends enabled. -/
theorem set_alarm_post (st : MediState) (i : ℕ) (hi : i < st.alarms.length)
    (seq1 seq2 : List Button) (st' : MediState)
    (h : set_alarm st i seq1 seq2 = some st') :
    (st'.alarms.getD i ⟨0, 0, true⟩).triggered = false ∧ st'.alarm_enabled = true := by
  simp only [set_alarm] at h
  split at h
  · exact absurd h (by simp)
  · split at h
    · exact absurd h (by simp)
    · injection h with h
      subst h
      refine ⟨?_, rfl⟩
      simp [List.getD_eq_getElem?_getD, List.getElem?_set_self hi]

/-- C9: every `set_alarm` invocation that returns — whatever the two button
sequences were, including a Cancel of both fields — leaves the edited entry
with `triggered = false` and leaves `alarm_enabled = true`. -/
theorem set_alarm_rearms (st : MediState) (i : ℕ) (hi : i < st.alarms.length)
    (seq1 seq2 : List Button) (st' : MediState)
    (h : set_alarm st i seq1 seq2 = some st') :
    (st'.alarms.getD i ⟨0, 0, true⟩).triggered = false ∧ st'.alarm_enabled = true :=
  set_alarm_post st i hi seq1 seq2 st' h

/-- Witness for C9: canceling both fields of alarm 0 still clears its
`triggered` latch and re-arms the registry. -/
theorem set_alarm_rearms_witness :
    set_alarm ⟨false, [⟨5, 10, true⟩, ⟨0, 0, true⟩, ⟨0, 0, true⟩], 0, 0, 0⟩ 0
        [Button.cancel] [Button.cancel] =
      some ⟨true, [⟨5, 10, false⟩, ⟨0, 0, true⟩, ⟨0, 0, true⟩], 0, 0, 0⟩ ∧
    ((⟨true, [⟨5, 10, false⟩, ⟨0, 0, true⟩, ⟨0, 0, true⟩], 0, 0, 0⟩ :
        MediState).alarms.getD 0 ⟨0, 0, true⟩).triggered = false ∧
    (⟨true, [⟨5, 10, false⟩, ⟨0, 0, true⟩, ⟨0, 0, true⟩], 0, 0, 0⟩ :
        MediState).alarm_enabled = true :=
  ⟨by decide,
   set_alarm_rearms ⟨false, [⟨5, 10, true⟩, ⟨0, 0, true⟩, ⟨0, 0, true⟩], 0, 0, 0⟩ 0
     (by decide) [Button.cancel] [Button.cancel] _ (by decide)⟩

/-- C2 fails on the code: starting from alarm 0 stored as `(5, 10)`, the user
confirms the hour field with Up then Ok (committing hour 6) and cancels the
minute field; the stored hour afterwards is 6, not the original 5 — the first
field was committed even though the second was canceled. -/
theorem two_field_edit_cex :
    (set_alarm ⟨false, [⟨5, 10, false⟩, ⟨0, 0, true⟩, ⟨0, 0, true⟩], 0, 0, 0⟩ 0
        [Button.up, Button.ok] [Button.cancel]).map
      (fun s => ((s.alarms.getD 0 ⟨0, 0, true⟩).hours, (s.alarms.getD 0 ⟨0, 0, true⟩).minutes))
      = some (6, 10) ∧ (6 : ℤ) ≠ 5 := by
  exact ⟨by decide, by decide⟩

/-- C2 amended: when the first field's edit returns a value `v` and the second
field is canceled, the first field IS committed while the second keeps its
pre-edit value — `set_alarm` stores hour `v` with the minutes unchanged, and
`set_timezone_and_config` recombines `utc_offset_sec` from `v` and the
original decomposed minutes.  The two-field edit is not atomic. -/
theorem two_field_edit_commits_first (st : MediState) (i : ℕ) (hi : i < st.alarms.length)
    (seq1 : List Button) (v : ℤ)
    (h1 : read_value (st.alarms.getD i ⟨0, 0, true⟩).hours 23 0 seq1 = some v)
    (utc : ℤ) (seqtz : List Button) (w : ℤ)
    (h2 : read_value (utc.tdiv 3600) 14 (-12) seqtz = some w) :
    (∃ st', set_alarm st i seq1 [Button.cancel] = some st' ∧
      (st'.alarms.getD i ⟨0, 0, true⟩).hours = v ∧
      (st'.alarms.getD i ⟨0, 0, true⟩).minutes = (st.alarms.getD i ⟨0, 0, true⟩).minutes) ∧
    set_timezone_and_config utc seqtz [Button.cancel] =
      some (w * 3600 + ((utc.tmod 3600).tdiv 60) * 60, w, (utc.tmod 3600).tdiv 60) := by
  constructor
  · have hstep : set_alarm st i seq1 [Button.cancel] =
        some { st with
          alarms := st.alarms.set i ⟨v, (st.alarms.getD i ⟨0, 0, true⟩).minutes, false⟩,
          alarm_enabled := true } := by
      simp only [set_alarm]
      rw [h1]
      rfl
    exact ⟨_, hstep, by simp [List.getD_eq_getElem?_getD, List.getElem?_set_self hi],
           by simp [List.getD_eq_getElem?_getD, List.getElem?_set_self hi]⟩
  · simp only [set_timezone_and_config]
    rw [h2]
    rfl

/-- Witness for C2's amended statement: from `utc_offset_sec = 0`, confirming
offset hour 1 with Ok and canceling the minute field commits
`utc_offset_sec = 3600`; likewise the concrete alarm edit commits hour 6. -/
theorem two_field_edit_commits_first_witness :
    read_value ((0 : ℤ).tdiv 3600) 14 (-12) [Button.up, Button.ok] = some 1 ∧
    set_timezone_and_config 0 [Button.up, Button.ok] [Button.cancel] =
      some (1 * 3600 + (((0 : ℤ).tmod 3600).tdiv 60) * 60, 1, ((0 : ℤ).tmod 3600).tdiv 60) :=
  ⟨by decide,
   (two_field_edit_commits_first
     ⟨false, [⟨5, 10, false⟩, ⟨0, 0, true⟩, ⟨0, 0, true⟩], 0, 0, 0⟩ 0 (by decide)
     [Button.up, Button.ok] 6 (by decide) 0 [Button.up, Button.ok] 1 (by decide)).2⟩

/-- The boolean firing condition, spelled out. -/
theorem alarm_fires_iff (a : Alarm) (h m : ℤ) :
    alarm_fires a h m = true ↔ a.triggered = false ∧ a.hours = h ∧ a.minutes = m := by
  simp [alarm_fires, and_assoc, Bool.not_eq_true']

/-- An entry that `check_alarm` just processed can no longer fire at the same
current time: either it fired and its latch is now set, or its condition was
already false and it is unchanged. -/
theorem alarm_fires_after_check (a : Alarm) (h m : ℤ) :
    alarm_fires (if alarm_fires a h m then { a with triggered := true } else a) h m = false := by
  cases hb : alarm_fires a h m
  · simp [hb]
  · simp [hb, alarm_fires]

/-- `check_alarm` on a disabled registry returns immediately. -/
theorem check_alarm_disabled (st : MediState) (hdis : st.alarm_enabled = false) :
    check_alarm st = (st, []) := by
  simp [check_alarm, hdis]

/-- A second `check_alarm` immediately after a first one (the current time
unchanged in between) fires nothing at all. -/
theorem check_alarm_twice (st : MediState) :
    (check_alarm (check_alarm st).1).2 = [] := by
  by_cases hen : st.alarm_enabled = true
  · have h1 : (check_alarm st).1 = { st with alarms := st.alarms.map (fun a =>
        if alarm_fires a st.hours st.minutes then { a with triggered := true } else a) } := by
      simp [check_alarm, hen]
    rw [h1]
    simp only [check_alarm, hen, Bool.not_true, Bool.false_eq_true, if_false]
    rw [List.filter_eq_nil_iff]
    intro i hi
    simp only [List.length_map, List.mem_range] at hi
    simp only [List.getD_eq_getElem?_getD, List.getElem?_map, List.getElem?_eq_getElem hi,
      Option.map_some', Option.getD_some]
    simp [alarm_fires_after_check]
  · have hdis : st.alarm_enabled = false := by
      simpa using hen
    simp [check_alarm_disabled st hdis]

/-- C1: with the registry enabled, one `check_alarm` run fires exactly those
entries whose latch is clear and whose stored time equals the current time,
setting exactly their latches (all other entries are untouched); an immediate
second run at the same current time fires nothing; with the registry disabled
`check_alarm` fires nothing and changes nothing; and any returning `set_alarm`
edit resets the edited entry's latch to false. -/
theorem check_alarm_spec (st : MediState) (hen : st.alarm_enabled = true) :
    (∀ i, i < st.alarms.length →
      (i ∈ (check_alarm st).2 ↔
        (st.alarms.getD i ⟨0, 0, true⟩).triggered = false ∧
        (st.alarms.getD i ⟨0, 0, true⟩).hours = st.hours ∧
        (st.alarms.getD i ⟨0, 0, true⟩).minutes = st.minutes) ∧
      (i ∈ (check_alarm st).2 →
        ((check_alarm st).1.alarms.getD i ⟨0, 0, true⟩).triggered = true) ∧
      (i ∉ (check_alarm st).2 →
        (check_alarm st).1.alarms.getD i ⟨0, 0, true⟩ = st.alarms.getD i ⟨0, 0, true⟩)) ∧
    (check_alarm (check_alarm st).1).2 = [] ∧
    (∀ st2 : MediState, st2.alarm_enabled = false → check_alarm st2 = (st2, [])) ∧
    (∀ st2 : MediState, ∀ i : ℕ, i < st2.alarms.length → ∀ seq1 seq2 st2',
      set_alarm st2 i seq1 seq2 = some st2' →
      (st2'.alarms.getD i ⟨0, 0, true⟩).triggered = false) := by
  refine ⟨fun i hi => ?_, check_alarm_twice st, check_alarm_disabled,
    fun st2 i hi seq1 seq2 st2' h => (set_alarm_post st2 i hi seq1 seq2 st2' h).1⟩
  have hmem : i ∈ (check_alarm st).2 ↔
      alarm_fires (st.alarms.getD i ⟨0, 0, true⟩) st.hours st.minutes = true := by
    simp [check_alarm, hen, List.mem_filter, List.mem_range, hi]
  refine ⟨hmem.trans (alarm_fires_iff _ _ _), fun hf => ?_, fun hnf => ?_⟩
  · have hfire := hmem.mp hf
    simp only [check_alarm, hen, Bool.not_true, Bool.false_eq_true, if_false]
    simp only [List.getD_eq_getElem?_getD, List.getElem?_map, List.getElem?_eq_getElem hi,
      Option.map_some', Option.getD_some]
    rw [List.getD_eq_getElem?_getD, List.getElem?_eq_getElem hi, Option.getD_some] at hfire
    simp [hfire]
  · have hnfire := (Bool.not_eq_true _).mp (fun hc => hnf (hmem.mpr hc))
    simp only [check_alarm, hen, Bool.not_true, Bool.false_eq_true, if_false]
    simp only [List.getD_eq_getElem?_getD, List.getElem?_map, List.getElem?_eq_getElem hi,
      Option.map_some', Option.getD_some]
    rw [List.getD_eq_getElem?_getD, List.getElem?_eq_getElem hi, Option.getD_some] at hnfire
    simp [hnfire]

/-- Witness for C1: a concrete enabled registry at current time 7:30 where
entry 0 matches with a clear latch, entry 1 matches with its latch already
set, and entry 2 does not match: the check fires exactly entry 0, and the
immediate second check fires nothing. -/
theorem check_alarm_spec_witness :
    (⟨true, [⟨7, 30, false⟩, ⟨7, 30, true⟩, ⟨8, 0, false⟩], 7, 30, 0⟩ :
        MediState).alarm_enabled = true ∧
    (check_alarm (check_alarm
      (⟨true, [⟨7, 30, false⟩, ⟨7, 30, true⟩, ⟨8, 0, false⟩], 7, 30, 0⟩ : MediState)).1).2 = [] ∧
    (check_alarm
      (⟨true, [⟨7, 30, false⟩, ⟨7, 30, true⟩, ⟨8, 0, false⟩], 7, 30, 0⟩ : MediState)).2 = [0] :=
  ⟨rfl,
   (check_alarm_spec ⟨true, [⟨7, 30, false⟩, ⟨7, 30, true⟩, ⟨8, 0, false⟩], 7, 30, 0⟩ rfl).2.1,
   by decide⟩

/-- For a raw reading `0 ≤ r`, the C-truncating Arduino rescale equals
`100 - (100 * r) / 4095` with Euclidean division (the numerator is
nonnegative, so truncation agrees with flooring). -/
theorem map_fn_light (r : ℤ) (hr : 0 ≤ r) :
    map_fn r 0 4095 100 0 = 100 - (100 * r) / 4095 := by
  unfold map_fn
  rw [show (r - 0) * ((0 : ℤ) - 100) = -(100 * r) by ring,
    show (4095 : ℤ) - 0 = 4095 by norm_num,
    Int.neg_tdiv, Int.tdiv_eq_ediv (by positivity) (by norm_num)]
  omega

/-- C7: for every raw reading in `[0, 4095]` the normalized intensity
`map(raw, 0, 4095, 100, 0) / 100.00` lies in `[0.0, 1.0]`, and the mapping is
antitone: a strictly larger raw reading yields a smaller or equal intensity. -/
theorem read_intensity_spec :
    (∀ r : ℤ, 0 ≤ r → r ≤ 4095 →
      0 ≤ read_intensity_value r ∧ read_intensity_value r ≤ 1) ∧
    (∀ r1 r2 : ℤ, 0 ≤ r1 → r1 < r2 → r2 ≤ 4095 →
      read_intensity_value r2 ≤ read_intensity_value r1) := by
  have h409 : (409500 : ℤ) / 4095 = 100 := by decide
  have hmap_bounds : ∀ r : ℤ, 0 ≤ r → r ≤ 4095 →
      0 ≤ map_fn r 0 4095 100 0 ∧ map_fn r 0 4095 100 0 ≤ 100 := by
    intro r h0 h4095
    rw [map_fn_light r h0]
    have hd0 : 0 ≤ (100 * r) / 4095 := Int.ediv_nonneg (by positivity) (by norm_num)
    have hd100 : (100 * r) / 4095 ≤ 100 := by
      have h := Int.ediv_le_ediv (show (0 : ℤ) < 4095 by norm_num)
        (show 100 * r ≤ 409500 by linarith)
      rw [h409] at h
      exact h
    omega
  have hmap_mono : ∀ r1 r2 : ℤ, 0 ≤ r1 → r1 ≤ r2 →
      map_fn r2 0 4095 100 0 ≤ map_fn r1 0 4095 100 0 := by
    intro r1 r2 h0 h12
    rw [map_fn_light r1 h0, map_fn_light r2 (le_trans h0 h12)]
    have h := Int.ediv_le_ediv (show (0 : ℤ) < 4095 by norm_num)
      (show 100 * r1 ≤ 100 * r2 by linarith)
    omega
  constructor
  · intro r h0 h4095
    obtain ⟨hl, hr⟩ := hmap_bounds r h0 h4095
    unfold read_intensity_value
    constructor
    · exact div_nonneg (by exact_mod_cast hl) (by norm_num)
    · rw [div_le_one (by norm_num)]
      exact_mod_cast hr
  · intro r1 r2 h1 hlt h2
    unfold read_intensity_value
    have h := hmap_mono r1 r2 h1 (le_of_lt hlt)
    exact (div_le_div_iff_of_pos_right (by norm_num)).mpr (by exact_mod_cast h)

/-- Witness for C7: the spec instantiated at the extreme raw readings 0 and
4095 — full intensity 1.0 at reading 0, and reading 4095 maps no higher. -/
theorem read_intensity_spec_witness :
    (0 : ℤ) ≤ 0 ∧ (0 : ℤ) ≤ 4095 ∧
    0 ≤ read_intensity_value 0 ∧ read_intensity_value 0 ≤ 1 ∧
    read_intensity_value 4095 ≤ read_intensity_value 0 :=
  ⟨le_refl 0, by norm_num,
   (read_intensity_spec.1 0 (le_refl 0) (by norm_num)).1,
   (read_intensity_spec.1 0 (le_refl 0) (by norm_num)).2,
   read_intensity_spec.2 0 4095 (le_refl 0) (by norm_num) (by norm_num)⟩

/-- Closed form for iterated Up presses: starting inside `[min_value, max_value]`,
`k` Up presses land on `min_value + (v - min_value + k) % (max_value - min_value + 1)`. -/
theorem up_step_iterate (max_value min_value v : ℤ)
    (hv1 : min_value ≤ v) (hv2 : v ≤ max_value) (k : ℕ) :
    (up_step max_value min_value)^[k] v =
      min_value + (v - min_value + k) % (max_value - min_value + 1) := by
  induction k with
  | zero =>
    simp only [Function.iterate_zero, id_eq, Nat.cast_zero, add_zero]
    rw [Int.emod_eq_of_lt (by omega) (by omega)]
    omega
  | succ k ih =>
    rw [Function.iterate_succ_apply', ih]
    have hn0 : (0 : ℤ) < max_value - min_value + 1 := by omega
    have hr0 : 0 ≤ (v - min_value + k) % (max_value - min_value + 1) :=
      Int.emod_nonneg _ (by omega)
    have hrn : (v - min_value + k) % (max_value - min_value + 1) <
        max_value - min_value + 1 := Int.emod_lt_of_pos _ hn0
    rw [show (v - min_value + ((k + 1 : ℕ) : ℤ)) = v - min_value + (k : ℤ) + 1 by
      push_cast; ring]
    rw [show (v - min_value + (k : ℤ) + 1) % (max_value - min_value + 1) =
        ((v - min_value + (k : ℤ)) % (max_value - min_value + 1) + 1) %
          (max_value - min_value + 1) from (Int.emod_add_emod _ _ _).symm]
    unfold up_step
    by_cases hc : min_value + (v - min_value + (k : ℤ)) % (max_value - min_value + 1) + 1 >
        max_value
    · rw [if_pos hc]
      rw [show (v - min_value + (k : ℤ)) % (max_value - min_value + 1) + 1 =
          max_value - min_value + 1 by omega]
      rw [Int.emod_self]
      omega
    · rw [if_neg hc]
      have hA : 0 ≤ (v - min_value + (k : ℤ)) % (max_value - min_value + 1) + 1 := by
        omega
      have hB : (v - min_value + (k : ℤ)) % (max_value - min_value + 1) + 1 <
          max_value - min_value + 1 := by omega
      rw [Int.emod_eq_of_lt hA hB]
      omega

/-- Running the editor on `k` Up presses followed by Ok returns the `k`-fold
`up_step` iterate of the working value. -/
theorem read_value_loop_replicate_up (init_value max_value min_value : ℤ) (k : ℕ)
    (temp : ℤ) :
    read_value_loop init_value max_value min_value temp
        (List.replicate k Button.up ++ [Button.ok]) =
      some ((up_step max_value min_value)^[k] temp) := by
  induction k generalizing temp with
  | zero => rfl
  | succ k ih =>
    rw [List.replicate_succ, List.cons_append]
    rw [show read_value_loop init_value max_value min_value temp
        (Button.up :: (List.replicate k Button.up ++ [Button.ok])) =
        read_value_loop init_value max_value min_value
          (if temp + 1 > max_value then min_value else temp + 1)
          (List.replicate k Button.up ++ [Button.ok]) from rfl]
    rw [ih, Function.iterate_succ_apply]
    rfl

/-- C4: for an in-range initial value, each Up press replaces the working
value `v` by `v + 1` wrapping to `min_value` when `v + 1 > max_value`, each
Down press replaces it by `v - 1` wrapping to `max_value` when
`v - 1 < min_value`, Ok returns the working value, Cancel returns the
original `init_value`; `max_value - min_value + 1` consecutive Up presses
return to the starting value, and every value of `[min_value, max_value]` is
reached by exactly one press count below that cycle length. -/
theorem read_value_editor_spec (init_value max_value min_value : ℤ)
    (h1 : min_value ≤ init_value) (h2 : init_value ≤ max_value) :
    (∀ temp : ℤ, ∀ rest : List Button,
      read_value_loop init_value max_value min_value temp (Button.up :: rest) =
        read_value_loop init_value max_value min_value
          (if temp + 1 > max_value then min_value else temp + 1) rest) ∧
    (∀ temp : ℤ, ∀ rest : List Button,
      read_value_loop init_value max_value min_value temp (Button.down :: rest) =
        read_value_loop init_value max_value min_value
          (if temp - 1 < min_value then max_value else temp - 1) rest) ∧
    (∀ temp : ℤ, ∀ rest : List Button,
      read_value_loop init_value max_value min_value temp (Button.ok :: rest) = some temp) ∧
    (∀ temp : ℤ, ∀ rest : List Button,
      read_value_loop init_value max_value min_value temp (Button.cancel :: rest) =
        some init_value) ∧
    read_value init_value max_value min_value
        (List.replicate (max_value - min_value + 1).toNat Button.up ++ [Button.ok]) =
      some init_value ∧
    (∀ w : ℤ, min_value ≤ w → w ≤ max_value →
      ∃! k : ℕ, k < (max_value - min_value + 1).toNat ∧
        read_value init_value max_value min_value
          (List.replicate k Button.up ++ [Button.ok]) = some w) := by
  have hn0 : (0 : ℤ) < max_value - min_value + 1 := by omega
  have hcastN : ((max_value - min_value + 1).toNat : ℤ) = max_value - min_value + 1 :=
    Int.toNat_of_nonneg (by omega)
  refine ⟨fun temp rest => rfl, fun temp rest => rfl, fun temp rest => rfl,
    fun temp rest => rfl, ?_, ?_⟩
  · rw [read_value, read_value_loop_replicate_up,
      up_step_iterate max_value min_value init_value h1 h2, hcastN]
    have : (init_value - min_value + (max_value - min_value + 1)) %
        (max_value - min_value + 1) = (init_value - min_value) %
        (max_value - min_value + 1) := by
      have h := Int.add_mul_emod_self_left (init_value - min_value)
        (max_value - min_value + 1) 1
      rw [mul_one] at h
      exact h
    rw [this, Int.emod_eq_of_lt (by omega) (by omega)]
    norm_num
  · intro w hw1 hw2
    refine ⟨((w - init_value) % (max_value - min_value + 1)).toNat, ⟨?_, ?_⟩, ?_⟩
    · have hlt : (w - init_value) % (max_value - min_value + 1) <
          max_value - min_value + 1 := Int.emod_lt_of_pos (w - init_value) hn0
      have hge : 0 ≤ (w - init_value) % (max_value - min_value + 1) :=
        Int.emod_nonneg (w - init_value) (by omega)
      omega
    · rw [read_value, read_value_loop_replicate_up,
        up_step_iterate max_value min_value init_value h1 h2,
        Int.toNat_of_nonneg (Int.emod_nonneg _ (by omega)), Int.add_emod_emod]
      have heq : init_value - min_value + (w - init_value) = w - min_value := by ring
      rw [heq, Int.emod_eq_of_lt (by omega) (by omega)]
      norm_num
    · intro k ⟨hk, hkval⟩
      rw [read_value, read_value_loop_replicate_up,
        up_step_iterate max_value min_value init_value h1 h2] at hkval
      have hkval' : (init_value - min_value + k) % (max_value - min_value + 1) =
          w - min_value := by
        injection hkval with hkval
        omega
      have hmod : ((w - init_value) % (max_value - min_value + 1)) =
          (k : ℤ) % (max_value - min_value + 1) := by
        have e1 : w - init_value = (init_value - min_value + k) %
            (max_value - min_value + 1) - (init_value - min_value) := by
          omega
        rw [e1, Int.sub_emod, Int.emod_emod_of_dvd _ dvd_rfl, ← Int.sub_emod]
        have e2 : init_value - min_value + (k : ℤ) - (init_value - min_value) = (k : ℤ) := by
          ring
        rw [e2]
      have hkmod : (k : ℤ) % (max_value - min_value + 1) = (k : ℤ) :=
        Int.emod_eq_of_lt (by positivity) (by omega)
      have hwmod0 : 0 ≤ (w - init_value) % (max_value - min_value + 1) :=
        Int.emod_nonneg _ (by omega)
      omega

/-- Witness for C4: the editor over `[0, 2]` starting at 1 — three Up presses
then Ok return to 1. -/
theorem read_value_editor_spec_witness :
    (0 : ℤ) ≤ 1 ∧ (1 : ℤ) ≤ 2 ∧
    read_value 1 2 0 (List.replicate ((2 : ℤ) - 0 + 1).toNat Button.up ++ [Button.ok]) =
      some 1 :=
  ⟨by norm_num, by norm_num,
   (read_value_editor_spec 1 2 0 (by norm_num) (by norm_num)).2.2.2.2.1⟩

end Medibox
